import Mathlib

/-!
Verification development for the file-uploader repository.

The client keeps a list of per-file records and drives each record through
a pending / uploading / success / error lifecycle.  Every state update in
the source is of the shape
  setFiles(prev => prev.map(f => f.id === id ? updated(f) : f))
which we embed as updateById below.  The asynchronous environment of one
upload attempt (the authorization response, the stream of transport
progress events, and the transfer outcome) is passed to uploadFile as
explicit data, so one call of uploadFile here denotes one complete attempt
of the source function on a fixed environment.
-/

namespace Uploader

/-- Lifecycle status of one file record, as in the FileInfo interface. -/
inductive Status where
  | pending
  | uploading
  | success
  | error
deriving DecidableEq

/-- One entry of the files state array (the FileInfo interface of the
source, minus the raw File object and the preview handle, which are
external browser resources no claim depends on).  The url and
errorMessage fields are optional in the source interface and absent on a
freshly created record. -/
structure FileRecord where
  id : Nat
  name : String
  size : Nat
  type : String
  status : Status
  progress : Nat
  url : Option String := none
  errorMessage : Option String := none
deriving DecidableEq

/-- A candidate file as seen by validation: declared name, MIME type and
byte size. -/
structure Candidate where
  name : String
  type : String
  size : Nat
deriving DecidableEq

/-- MAX_FILE_SIZE = 15 * 1024 * 1024 in the source. -/
def MAX_FILE_SIZE : Nat := 15 * 1024 * 1024

/-- ALLOWED_TYPES in the source. -/
def ALLOWED_TYPES : List String :=
  ["image/jpeg", "image/png", "image/gif", "video/mp4", "video/quicktime"]

/-- The record constructed for an accepted candidate: status pending,
progress 0, no url, no errorMessage.  The source draws the id from
crypto.randomUUID(); we model the id supply as a counter, uniqueness
being the only property the source relies on. -/
def mkFileRecord (id : Nat) (c : Candidate) : FileRecord :=
  { id := id, name := c.name, size := c.size, type := c.type,
    status := Status.pending, progress := 0, url := none, errorMessage := none }

/-- The validation loop of validateAndAddFiles: walks the candidates in
order, pushing a rejection line for a disallowed type, then for an
oversized file, and otherwise a fresh pending record. -/
def validateBatch : Nat → List Candidate → List FileRecord × List String
  | _, [] => ([], [])
  | nextId, c :: rest =>
    if !ALLOWED_TYPES.contains c.type then
      let r := validateBatch nextId rest
      (r.1, (c.name ++ " (unsupported type)") :: r.2)
    else if c.size > MAX_FILE_SIZE then
      let r := validateBatch nextId rest
      (r.1, (c.name ++ " (exceeds 15MB limit)") :: r.2)
    else
      let r := validateBatch (nextId + 1) rest
      (mkFileRecord nextId c :: r.1, r.2)

/-- The manager state visible to the UI: the files array and the
batch-level rejection advisory (the fileError string state). -/
structure ManagerState where
  files : List FileRecord
  fileError : String
deriving DecidableEq

/-- validateAndAddFiles: clears fileError, and when the batch is
non-empty validates it, sets the advisory when something was rejected,
and appends the accepted records to the existing files array.  Returns
the new state together with the list of newly accepted records (the
records the source then auto-uploads). -/
def validateAndAddFiles (nextId : Nat) (selectedFiles : List Candidate)
    (st : ManagerState) : ManagerState × List FileRecord :=
  let st0 : ManagerState := { st with fileError := "" }
  if selectedFiles.length > 0 then
    let newFiles := (validateBatch nextId selectedFiles).1
    let invalidFiles := (validateBatch nextId selectedFiles).2
    let st1 : ManagerState :=
      if invalidFiles.length > 0 then
        { st0 with
          fileError := "Some files were not added: " ++ String.intercalate ", " invalidFiles }
      else st0
    ({ st1 with files := st1.files ++ newFiles }, newFiles)
  else (st0, [])

/-! ## Per-record update functions of uploadFile -/

/-- The uploading update: spread of the old record with status uploading
and progress 0.  Note that it does not touch url or errorMessage. -/
def uploadingUpd (f : FileRecord) : FileRecord :=
  { f with status := Status.uploading, progress := 0 }

/-- The progress update: spread of the old record with the new progress. -/
def progressUpd (p : Nat) (f : FileRecord) : FileRecord :=
  { f with progress := p }

/-- The success update: status success, progress 100, url set.  It does
not touch errorMessage. -/
def successUpd (u : String) (f : FileRecord) : FileRecord :=
  { f with status := Status.success, progress := 100, url := some u }

/-- The error update: status error, progress 0, errorMessage set.  It
does not touch url. -/
def errorUpd (m : String) (f : FileRecord) : FileRecord :=
  { f with status := Status.error, progress := 0, errorMessage := some m }

/-- prev.map(f => f.id === id ? u(f) : f), the only shape of state update
the source performs on the files array. -/
def updateById (id : Nat) (u : FileRecord → FileRecord)
    (s : List FileRecord) : List FileRecord :=
  s.map (fun f => if f.id = id then u f else f)

/-! ## The environment of one upload attempt -/

/-- The JSON body the client reads from POST /get-upload-url.  The client
dereferences the fields url, key and bucket of this object; bucket is
optional because the server of this repository never sends it. -/
structure AuthResponse where
  url : String
  key : String
  bucket : Option String := none
deriving DecidableEq

/-- Outcome of the authorization request: ok carries the parsed JSON
body, fail carries response.statusText of a non-ok response. -/
inductive AuthResult where
  | ok (resp : AuthResponse)
  | fail (statusText : String)
deriving DecidableEq

/-- Outcome of the byte transfer: ok, or a rejection carrying the message
of the thrown value when it is an Error instance (none when the thrown
value is not an Error). -/
inductive TransferResult where
  | ok
  | err (msg : Option String)
deriving DecidableEq

/-- One onUploadProgress notification.  total = 0 stands for a missing or
zero total, both falsy in the source, which then falls back to the
declared file size. -/
structure ProgressEvent where
  loaded : Nat
  total : Nat
deriving DecidableEq

/-- Math.round((loaded * 100) / (total || size)) on nonnegative numbers:
round half up of the exact quotient.  When both total and size are zero
the source computes Math.round(NaN); we return 0 on that unreachable
edge. -/
def percentCompleted (loaded total size : Nat) : Nat :=
  let d := if total = 0 then size else total
  (200 * loaded + d) / (2 * d)

/-- Interpolation of a possibly undefined value into a template literal:
undefined prints as the string undefined. -/
def jsInterp : Option String → String
  | none => "undefined"
  | some s => s

/-- The url the client stores on success:
https://PRESIGNED.bucket.s3.amazonaws.com/PRESIGNED.key built by string
interpolation from the parsed authorization response. -/
def clientRemoteUrl (resp : AuthResponse) : String :=
  "https://" ++ jsInterp resp.bucket ++ ".s3.amazonaws.com/" ++ resp.key

/-- The Error message thrown on a non-ok authorization response. -/
def authFailMessage (statusText : String) : String :=
  "Failed to get upload URL: " ++ statusText

/-- The errorMessage stored in the catch block: the message of the thrown
Error, or the generic fallback for a non-Error value. -/
def transferFailMessage : Option String → String
  | some m => m
  | none => "Failed to upload file"

/-- The progress-callback phase of one attempt: each transport event
overwrites the progress of the identified record with the freshly
computed percentage. -/
def applyProgress (fid : Nat) (size : Nat) (events : List ProgressEvent)
    (s : List FileRecord) : List FileRecord :=
  events.foldl
    (fun acc e => updateById fid (progressUpd (percentCompleted e.loaded e.total size)) acc)
    s

/-- uploadFile for one complete attempt on a fixed environment: first the
uploading update, then either the authorization-failure error update, or
the progress events followed by the success or transfer-failure update.
The closure captures the FileInfo argument, so id and size come from the
info record the caller passed, not from the current state. -/
def uploadFile (info : FileRecord) (auth : AuthResult)
    (events : List ProgressEvent) (transfer : TransferResult)
    (s : List FileRecord) : List FileRecord :=
  let s1 := updateById info.id uploadingUpd s
  match auth with
  | AuthResult.fail st => updateById info.id (errorUpd (authFailMessage st)) s1
  | AuthResult.ok resp =>
    let s2 := applyProgress info.id info.size events s1
    match transfer with
    | TransferResult.ok => updateById info.id (successUpd (clientRemoteUrl resp)) s2
    | TransferResult.err m => updateById info.id (errorUpd (transferFailMessage m)) s2

/-- removeFile: filter the record out of the array (the preview-handle
revocation is an external browser effect). -/
def removeFile (id : Nat) (s : List FileRecord) : List FileRecord :=
  s.filter (fun f => f.id ≠ id)

/-- retryUpload: look the record up by id only, and if present restart
the full upload for it; no status check is made. -/
def retryUpload (id : Nat) (auth : AuthResult) (events : List ProgressEvent)
    (transfer : TransferResult) (s : List FileRecord) : List FileRecord :=
  match s.find? (fun f => f.id = id) with
  | some fileToRetry => uploadFile fileToRetry auth events transfer s
  | none => s

/-- The synchronous prefix of the auto-upload loop of validateAndAddFiles:
each newly accepted record receives the first (uploading) update of its
own uploadFile call. -/
def autoStart (newFiles : List FileRecord) (files : List FileRecord) : List FileRecord :=
  newFiles.foldl (fun acc f => updateById f.id uploadingUpd acc) files

/-! ## The authorization server -/

/-- The key generated by POST /get-upload-url: uploads/NOW-FILENAME with
NOW the epoch-millis timestamp. -/
def serverKey (now : Nat) (filename : String) : String :=
  "uploads/" ++ toString now ++ "-" ++ filename

/-- The JSON body returned by POST /get-upload-url on success: the
presigned url and the key, and nothing else; in particular no bucket
field, so the client reads undefined there. -/
def getUploadUrlResponse (now : Nat) (filename : String)
    (presigned : String) : AuthResponse :=
  { url := presigned, key := serverKey now filename, bucket := none }

/-! ## Characterisation helpers -/

/-- The cumulative effect of one complete upload attempt on the one
record it addresses (uploadFile below is shown to be updateById of this
function). -/
def attemptUpd (info : FileRecord) (auth : AuthResult)
    (events : List ProgressEvent) (transfer : TransferResult)
    (f : FileRecord) : FileRecord :=
  let f1 := uploadingUpd f
  match auth with
  | AuthResult.fail st => errorUpd (authFailMessage st) f1
  | AuthResult.ok resp =>
    let f2 := events.foldl
      (fun g e => progressUpd (percentCompleted e.loaded e.total info.size) g) f1
    match transfer with
    | TransferResult.ok => successUpd (clientRemoteUrl resp) f2
    | TransferResult.err m => errorUpd (transferFailMessage m) f2

/-- The acceptance test of validation, as one boolean: allowed type and
size within the ceiling. -/
def accepts (c : Candidate) : Bool :=
  ALLOWED_TYPES.contains c.type && decide (c.size ≤ MAX_FILE_SIZE)

/-- The rejection line validation produces for a rejected candidate: the
type test is made first, the size test only on allowed types. -/
def rejectionLine (c : Candidate) : String :=
  if ALLOWED_TYPES.contains c.type then c.name ++ " (exceeds 15MB limit)"
  else c.name ++ " (unsupported type)"

/-- The candidate data a record carries. -/
def candOf (r : FileRecord) : Candidate :=
  { name := r.name, type := r.type, size := r.size }

/-- Fresh pending records for a list of accepted candidates, with
consecutive ids from n. -/
def buildRecords : Nat → List Candidate → List FileRecord
  | _, [] => []
  | n, c :: rest => mkFileRecord n c :: buildRecords (n + 1) rest

/-- The per-record field invariant claimed by the specification: url
present exactly in state success, errorMessage present exactly in state
error, and never both fields at once. -/
def recordWF (f : FileRecord) : Bool :=
  (f.url.isSome == decide (f.status = Status.success)) &&
  (f.errorMessage.isSome == decide (f.status = Status.error)) &&
  !(f.url.isSome && f.errorMessage.isSome)

/-! ## Helper lemmas -/

lemma uploadingUpd_keeps_id (f : FileRecord) : (uploadingUpd f).id = f.id := rfl

lemma progressUpd_keeps_id (p : Nat) (f : FileRecord) : (progressUpd p f).id = f.id := rfl

lemma foldlProgress_keeps_id (size : Nat) (events : List ProgressEvent) (g : FileRecord) :
    (events.foldl (fun g2 e => progressUpd (percentCompleted e.loaded e.total size) g2) g).id
      = g.id := by
  induction events generalizing g with
  | nil => rfl
  | cons e rest ih => simpa [List.foldl_cons, progressUpd] using ih (progressUpd _ g)

lemma updateById_comp (i : Nat) (u v : FileRecord → FileRecord)
    (hv : ∀ f, (v f).id = f.id) (s : List FileRecord) :
    updateById i u (updateById i v s) = updateById i (fun f => u (v f)) s := by
  simp only [updateById, List.map_map]
  have hfun : ((fun f => if f.id = i then u f else f) ∘ fun f => if f.id = i then v f else f)
      = fun f => if f.id = i then u (v f) else f := by
    funext f
    by_cases h : f.id = i
    · simp [Function.comp, h, hv f]
    · simp [Function.comp, h]
  rw [hfun]

lemma applyProgress_updateById (fid size : Nat) (events : List ProgressEvent)
    (v : FileRecord → FileRecord) (hv : ∀ f, (v f).id = f.id) (s : List FileRecord) :
    applyProgress fid size events (updateById fid v s)
      = updateById fid
          (fun f => events.foldl
            (fun g e => progressUpd (percentCompleted e.loaded e.total size) g) (v f)) s := by
  induction events generalizing v with
  | nil => simp [applyProgress]
  | cons e rest ih =>
    simp only [applyProgress, List.foldl_cons] at *
    rw [updateById_comp fid _ v hv]
    exact ih (fun f => progressUpd (percentCompleted e.loaded e.total size) (v f))
      (fun f => by simp [progressUpd, hv f])

lemma uploadFile_eq_updateById (info : FileRecord) (auth : AuthResult)
    (events : List ProgressEvent) (transfer : TransferResult) (s : List FileRecord) :
    uploadFile info auth events transfer s
      = updateById info.id (attemptUpd info auth events transfer) s := by
  cases auth with
  | fail st =>
    simp only [uploadFile, attemptUpd]
    rw [updateById_comp info.id (errorUpd (authFailMessage st)) uploadingUpd
      (fun f => rfl) s]
    rfl
  | ok resp =>
    cases transfer with
    | ok =>
      simp only [uploadFile, attemptUpd]
      rw [applyProgress_updateById info.id info.size events uploadingUpd (fun f => rfl) s,
        updateById_comp info.id (successUpd (clientRemoteUrl resp))
          (fun f => List.foldl
            (fun g e => progressUpd (percentCompleted e.loaded e.total info.size) g)
            (uploadingUpd f) events)
          (fun f => foldlProgress_keeps_id info.size events (uploadingUpd f)) s]
      rfl
    | err m =>
      simp only [uploadFile, attemptUpd]
      rw [applyProgress_updateById info.id info.size events uploadingUpd (fun f => rfl) s,
        updateById_comp info.id (errorUpd (transferFailMessage m))
          (fun f => List.foldl
            (fun g e => progressUpd (percentCompleted e.loaded e.total info.size) g)
            (uploadingUpd f) events)
          (fun f => foldlProgress_keeps_id info.size events (uploadingUpd f)) s]
      rfl

lemma updateById_of_forall_ne (i : Nat) (u : FileRecord → FileRecord)
    (s : List FileRecord) (h : ∀ g ∈ s, g.id ≠ i) :
    updateById i u s = s := by
  induction s with
  | nil => rfl
  | cons a t ih =>
    have ha : a.id ≠ i := h a (List.mem_cons_self a t)
    have ht := ih (fun g hg => h g (List.mem_cons_of_mem a hg))
    simp only [updateById, List.map_cons, if_neg ha] at *
    rw [ht]

lemma updateById_append (i : Nat) (u : FileRecord → FileRecord)
    (a b : List FileRecord) :
    updateById i u (a ++ b) = updateById i u a ++ updateById i u b := by
  simp [updateById]

lemma validateBatch_eq (n : Nat) (cs : List Candidate) :
    validateBatch n cs
      = (buildRecords n (cs.filter accepts),
         (cs.filter (fun c => !accepts c)).map rejectionLine) := by
  induction cs generalizing n with
  | nil => rfl
  | cons c rest ih =>
    by_cases h1 : c.type ∈ ALLOWED_TYPES
    · by_cases h2 : c.size ≤ MAX_FILE_SIZE
      · have ha : accepts c = true := by simp [accepts, h1, h2]
        simp [validateBatch, h1, Nat.not_lt.mpr h2, ha, ih, buildRecords]
      · have ha : accepts c = false := by simp [accepts, h2]
        simp [validateBatch, h1, Nat.lt_of_not_le h2, ha, ih, rejectionLine]
    · have ha : accepts c = false := by simp [accepts, h1]
      simp [validateBatch, h1, ha, ih, rejectionLine]

lemma candOf_mkFileRecord (n : Nat) (c : Candidate) : candOf (mkFileRecord n c) = c := rfl

lemma buildRecords_map_candOf (l : List Candidate) (n : Nat) :
    (buildRecords n l).map candOf = l := by
  induction l generalizing n with
  | nil => rfl
  | cons c rest ih => simp [buildRecords, candOf_mkFileRecord, ih]

lemma buildRecords_id_ge (l : List Candidate) (n : Nat) :
    ∀ r ∈ buildRecords n l, n ≤ r.id := by
  induction l generalizing n with
  | nil => simp [buildRecords]
  | cons c rest ih =>
    intro r hr
    rcases List.mem_cons.mp hr with h | h
    · simp [h, mkFileRecord]
    · exact Nat.le_of_succ_le (ih (n + 1) r h)

lemma autoStart_buildRecords (l : List Candidate) (files0 : List FileRecord) (n : Nat)
    (h : ∀ g ∈ files0, g.id < n) :
    autoStart (buildRecords n l) (files0 ++ buildRecords n l)
      = files0 ++ (buildRecords n l).map uploadingUpd := by
  induction l generalizing n files0 with
  | nil => simp [buildRecords, autoStart]
  | cons c rest ih =>
    simp only [buildRecords, autoStart, List.foldl_cons]
    have hid : (mkFileRecord n c).id = n := rfl
    have hstep : updateById (mkFileRecord n c).id uploadingUpd
        (files0 ++ mkFileRecord n c :: buildRecords (n + 1) rest)
        = (files0 ++ [uploadingUpd (mkFileRecord n c)]) ++ buildRecords (n + 1) rest := by
      rw [updateById_append, hid,
        updateById_of_forall_ne n uploadingUpd files0
          (fun g hg => Nat.ne_of_lt (h g hg))]
      have hrest : updateById n uploadingUpd (buildRecords (n + 1) rest)
          = buildRecords (n + 1) rest :=
        updateById_of_forall_ne n uploadingUpd _
          (fun g hg => Nat.ne_of_gt (Nat.lt_of_succ_le (buildRecords_id_ge rest (n + 1) g hg)))
      simp [updateById, hid, hrest]
      simpa [updateById] using hrest
    rw [hstep]
    have ih2 := ih (files0 ++ [uploadingUpd (mkFileRecord n c)]) (n + 1)
      (by
        intro g hg
        rcases List.mem_append.mp hg with hg0 | hg1
        · exact Nat.lt_succ_of_lt (h g hg0)
        · rcases List.mem_singleton.mp hg1 with rfl
          exact Nat.lt_succ_self n)
    simpa [autoStart, List.append_assoc] using ih2

lemma removeFile_id_ne (i : Nat) (s : List FileRecord) :
    ∀ g ∈ removeFile i s, g.id ≠ i := by
  intro g hg
  have := List.of_mem_filter hg
  simpa using this

lemma buildRecords_map_status (l : List Candidate) (n : Nat) :
    (buildRecords n l).map FileRecord.status = l.map (fun _ => Status.pending) := by
  induction l generalizing n with
  | nil => rfl
  | cons c rest ih => simp [buildRecords, mkFileRecord, ih]

lemma buildRecords_map_progress (l : List Candidate) (n : Nat) :
    (buildRecords n l).map FileRecord.progress = l.map (fun _ => 0) := by
  induction l generalizing n with
  | nil => rfl
  | cons c rest ih => simp [buildRecords, mkFileRecord, ih]

lemma buildRecords_map_url (l : List Candidate) (n : Nat) :
    (buildRecords n l).map FileRecord.url = l.map (fun _ => (none : Option String)) := by
  induction l generalizing n with
  | nil => rfl
  | cons c rest ih => simp [buildRecords, mkFileRecord, ih]

lemma buildRecords_map_errorMessage (l : List Candidate) (n : Nat) :
    (buildRecords n l).map FileRecord.errorMessage
      = l.map (fun _ => (none : Option String)) := by
  induction l generalizing n with
  | nil => rfl
  | cons c rest ih => simp [buildRecords, mkFileRecord, ih]

lemma foldlProgress_keeps_status (size : Nat) (events : List ProgressEvent) (g : FileRecord) :
    (events.foldl (fun g2 e => progressUpd (percentCompleted e.loaded e.total size) g2) g).status
      = g.status := by
  induction events generalizing g with
  | nil => rfl
  | cons e rest ih => simpa [List.foldl_cons, progressUpd] using ih (progressUpd _ g)

lemma foldlProgress_keeps_url (size : Nat) (events : List ProgressEvent) (g : FileRecord) :
    (events.foldl (fun g2 e => progressUpd (percentCompleted e.loaded e.total size) g2) g).url
      = g.url := by
  induction events generalizing g with
  | nil => rfl
  | cons e rest ih => simpa [List.foldl_cons, progressUpd] using ih (progressUpd _ g)

lemma foldlProgress_keeps_errorMessage (size : Nat) (events : List ProgressEvent)
    (g : FileRecord) :
    (events.foldl
      (fun g2 e => progressUpd (percentCompleted e.loaded e.total size) g2) g).errorMessage
      = g.errorMessage := by
  induction events generalizing g with
  | nil => rfl
  | cons e rest ih => simpa [List.foldl_cons, progressUpd] using ih (progressUpd _ g)

lemma buildRecords_recordWF (l : List Candidate) (n : Nat) :
    ∀ r ∈ buildRecords n l, recordWF r = true := by
  induction l generalizing n with
  | nil => simp [buildRecords]
  | cons c rest ih =>
    intro r hr
    rcases List.mem_cons.mp hr with h | h
    · rw [h]
      rfl
    · exact ih (n + 1) r h

lemma validateAndAddFiles_spec (n : Nat) (cs : List Candidate) (st : ManagerState) :
    (validateAndAddFiles n cs st).1.files = st.files ++ (validateBatch n cs).1 ∧
    (validateAndAddFiles n cs st).2 = (validateBatch n cs).1 ∧
    (validateAndAddFiles n cs st).1.fileError
      = (if (validateBatch n cs).2.length > 0
          then "Some files were not added: " ++ String.intercalate ", " (validateBatch n cs).2
          else "") := by
  cases cs with
  | nil => simp [validateAndAddFiles, validateBatch]
  | cons c rest =>
    by_cases hi : (validateBatch n (c :: rest)).2.length > 0
    · simp [validateAndAddFiles, hi]
    · simp [validateAndAddFiles, hi, Nat.le_zero.mp (Nat.not_lt.mp hi)]

/-! ## Claims -/

/-- Claim C5: a candidate is accepted, producing a pending record with
progress 0 and neither url nor errorMessage, exactly when its declared
MIME type is in the allowed set and its size is at most 15 * 1024 * 1024
bytes; the accepted records correspond one to one and in order to the
accepted candidates, and every rejected candidate contributes exactly its
name followed by (unsupported type) or (exceeds 15MB limit) to the
rejection summary and never a record. -/
theorem claim_C5 (n : Nat) (cs : List Candidate) :
    (∀ c : Candidate,
      accepts c = true ↔ (c.type ∈ ALLOWED_TYPES ∧ c.size ≤ 15 * 1024 * 1024)) ∧
    (validateBatch n cs).2 = (cs.filter (fun c => !accepts c)).map rejectionLine ∧
    (∀ c : Candidate, rejectionLine c
      = if c.type ∈ ALLOWED_TYPES then c.name ++ " (exceeds 15MB limit)"
        else c.name ++ " (unsupported type)") ∧
    (validateBatch n cs).1.map candOf = cs.filter accepts ∧
    (validateBatch n cs).1.map FileRecord.status
      = (cs.filter accepts).map (fun _ => Status.pending) ∧
    (validateBatch n cs).1.map FileRecord.progress
      = (cs.filter accepts).map (fun _ => 0) ∧
    (validateBatch n cs).1.map FileRecord.url
      = (cs.filter accepts).map (fun _ => (none : Option String)) ∧
    (validateBatch n cs).1.map FileRecord.errorMessage
      = (cs.filter accepts).map (fun _ => (none : Option String)) := by
  refine ⟨?_, ?_, ?_, ?_, ?_, ?_, ?_, ?_⟩
  · intro c
    simp [accepts, MAX_FILE_SIZE]
  · rw [validateBatch_eq]
  · intro c
    by_cases h : c.type ∈ ALLOWED_TYPES
    · simp [rejectionLine, h]
    · simp [rejectionLine, h]
  · rw [validateBatch_eq]
    exact buildRecords_map_candOf _ _
  · rw [validateBatch_eq]
    exact buildRecords_map_status _ _
  · rw [validateBatch_eq]
    exact buildRecords_map_progress _ _
  · rw [validateBatch_eq]
    exact buildRecords_map_url _ _
  · rw [validateBatch_eq]
    exact buildRecords_map_errorMessage _ _

/-- Claim C6: an attempt whose authorization request gets a non-ok
response moves the record to error with progress 0 and the message
Failed to get upload URL followed by the diagnostic statusText, and the
outcome does not depend on any transfer data, no transfer being
attempted; an attempt whose transfer fails moves the record to error with
progress 0 and the message of the thrown Error, falling back to the
generic Failed to upload file when the thrown value carries no message. -/
theorem claim_C6 (info : FileRecord) (events : List ProgressEvent)
    (transfer : TransferResult) (s : List FileRecord) (st : String)
    (m : Option String) (resp : AuthResponse) (g : FileRecord) :
    (uploadFile info (AuthResult.fail st) events transfer s
      = updateById info.id (fun f => errorUpd (authFailMessage st) (uploadingUpd f)) s) ∧
    (∀ (events2 : List ProgressEvent) (transfer2 : TransferResult),
      uploadFile info (AuthResult.fail st) events transfer s
        = uploadFile info (AuthResult.fail st) events2 transfer2 s) ∧
    authFailMessage st = "Failed to get upload URL: " ++ st ∧
    ((errorUpd (authFailMessage st) (uploadingUpd g)).status = Status.error ∧
      (errorUpd (authFailMessage st) (uploadingUpd g)).progress = 0 ∧
      (errorUpd (authFailMessage st) (uploadingUpd g)).errorMessage
        = some (authFailMessage st)) ∧
    ((attemptUpd info (AuthResult.ok resp) events (TransferResult.err m) g).status
        = Status.error ∧
      (attemptUpd info (AuthResult.ok resp) events (TransferResult.err m) g).progress = 0 ∧
      (attemptUpd info (AuthResult.ok resp) events (TransferResult.err m) g).errorMessage
        = some (transferFailMessage m)) ∧
    transferFailMessage none = "Failed to upload file" ∧
    (∀ msg : String, transferFailMessage (some msg) = msg) := by
  refine ⟨?_, ?_, rfl, ⟨rfl, rfl, rfl⟩, ⟨rfl, rfl, rfl⟩, rfl, fun msg => rfl⟩
  · rw [uploadFile_eq_updateById]
    rfl
  · intro events2 transfer2
    rw [uploadFile_eq_updateById, uploadFile_eq_updateById]
    rfl

/-- Claim C10: every intake call first clears the batch advisory, so
after the call the advisory is exactly the joined rejection summary of
this batch, the empty string when nothing was rejected, and it does not
depend on the advisory left by earlier batches. -/
theorem claim_C10 (n : Nat) (cs : List Candidate) (st : ManagerState) (e : String) :
    ((validateAndAddFiles n cs st).1).fileError
      = (if (validateBatch n cs).2.length > 0
          then "Some files were not added: " ++ String.intercalate ", " (validateBatch n cs).2
          else "") ∧
    ((validateAndAddFiles n cs { st with fileError := e }).1).fileError
      = ((validateAndAddFiles n cs st).1).fileError := by
  constructor
  · exact (validateAndAddFiles_spec n cs st).2.2
  · rw [(validateAndAddFiles_spec n cs st).2.2,
      (validateAndAddFiles_spec n cs { st with fileError := e }).2.2]

/-- Claim C1 is false on the code: retryUpload checks only that a record
with the id exists, not that its status is error; invoked on a record in
success it restarts the upload, and here the new authorization fails, so
the record leaves success and ends in error, a transition the claim
forbids. -/
theorem claim_C1_counterexample :
    ({ id := 2, name := "a.png", size := 100, type := "image/png",
       status := Status.success, progress := 100,
       url := some "https://b.s3.amazonaws.com/uploads/123-a.png",
       errorMessage := none : FileRecord }).status = Status.success ∧
    retryUpload 2 (AuthResult.fail "Internal Server Error") [] TransferResult.ok
        [{ id := 2, name := "a.png", size := 100, type := "image/png",
           status := Status.success, progress := 100,
           url := some "https://b.s3.amazonaws.com/uploads/123-a.png",
           errorMessage := none : FileRecord }]
      ≠ [{ id := 2, name := "a.png", size := 100, type := "image/png",
           status := Status.success, progress := 100,
           url := some "https://b.s3.amazonaws.com/uploads/123-a.png",
           errorMessage := none : FileRecord }] ∧
    (retryUpload 2 (AuthResult.fail "Internal Server Error") [] TransferResult.ok
        [{ id := 2, name := "a.png", size := 100, type := "image/png",
           status := Status.success, progress := 100,
           url := some "https://b.s3.amazonaws.com/uploads/123-a.png",
           errorMessage := none : FileRecord }]).map FileRecord.status
      = [Status.error] := by
  decide

/-- Claim C1, amended: retryUpload looks the record up by id only.  When
no record carries the id the call is a no-op; when one does, retry
restarts the full upload protocol for the found record whatever its
status, success included.  The only guard keeping retry away from
non-error records is the UI, which renders the retry control just for
records in state error. -/
theorem claim_C1_amended (id : Nat) (auth : AuthResult) (events : List ProgressEvent)
    (transfer : TransferResult) (s : List FileRecord) :
    ((∀ g ∈ s, g.id ≠ id) → retryUpload id auth events transfer s = s) ∧
    (∀ f : FileRecord, s.find? (fun g => g.id = id) = some f →
      retryUpload id auth events transfer s = uploadFile f auth events transfer s) := by
  constructor
  · intro h
    have hn : s.find? (fun g => g.id = id) = none := by
      apply List.find?_eq_none.mpr
      intro x hx
      simpa using h x hx
    simp [retryUpload, hn]
  · intro f hf
    simp [retryUpload, hf]

theorem claim_C1_witness :
    retryUpload 7 (AuthResult.fail "x") [] TransferResult.ok
        [{ id := 1, name := "a", size := 1, type := "image/png",
           status := Status.pending, progress := 0 : FileRecord }]
      = [{ id := 1, name := "a", size := 1, type := "image/png",
           status := Status.pending, progress := 0 : FileRecord }] :=
  (claim_C1_amended 7 (AuthResult.fail "x") [] TransferResult.ok
    [{ id := 1, name := "a", size := 1, type := "image/png",
       status := Status.pending, progress := 0 : FileRecord }]).1 (by decide)

/-- Claim C2 is false on the code: the progress callback overwrites the
stored percentage with the freshly computed one without any clamping, so
a transport report of a smaller cumulative value makes the delivered
percentage regress from 50 to 40 within one attempt instead of holding
at 50. -/
theorem claim_C2_counterexample :
    percentCompleted 50 100 100 = 50 ∧
    percentCompleted 40 100 100 = 40 ∧
    (applyProgress 1 100 [⟨50, 100⟩]
        [{ id := 1, name := "a.png", size := 100, type := "image/png",
           status := Status.uploading, progress := 0 : FileRecord }]).map
      FileRecord.progress = [50] ∧
    (applyProgress 1 100 [⟨50, 100⟩, ⟨40, 100⟩]
        [{ id := 1, name := "a.png", size := 100, type := "image/png",
           status := Status.uploading, progress := 0 : FileRecord }]).map
      FileRecord.progress = [40] ∧
    (40 : Nat) < 50 := by
  decide

/-- Claim C2, amended: every progress event overwrites progressPercent
with round(loaded * 100 / (total, or the declared size when total is
absent or zero)), with no clamping; the delivered sequence is therefore
non-decreasing whenever the transport reports non-decreasing cumulative
values against one total, the delivered value after any event run is that
of the last event, and at the end of the attempt progressPercent is 100
exactly when the attempt ended in success. -/
theorem claim_C2_amended (size : Nat) (e1 e2 e : ProgressEvent) (g : FileRecord)
    (events : List ProgressEvent) (info : FileRecord) (auth : AuthResult)
    (transfer : TransferResult) :
    (e1.total = e2.total → e1.loaded ≤ e2.loaded →
      percentCompleted e1.loaded e1.total size
        ≤ percentCompleted e2.loaded e2.total size) ∧
    (((events ++ [e]).foldl
        (fun g2 ev => progressUpd (percentCompleted ev.loaded ev.total size) g2) g).progress
      = percentCompleted e.loaded e.total size) ∧
    ((attemptUpd info auth events transfer g).progress = 100
      ↔ (attemptUpd info auth events transfer g).status = Status.success) := by
  refine ⟨?_, ?_, ?_⟩
  · intro ht hl
    simp only [percentCompleted]
    rw [ht]
    exact Nat.div_le_div_right (by omega)
  · rw [List.foldl_append]
    rfl
  · cases auth with
    | fail st => simp [attemptUpd, errorUpd]
    | ok resp =>
      cases transfer with
      | ok => simp [attemptUpd, successUpd]
      | err m => simp [attemptUpd, errorUpd]

theorem claim_C2_witness :
    percentCompleted 40 100 100 ≤ percentCompleted 50 100 100 :=
  (claim_C2_amended 100 ⟨40, 100⟩ ⟨50, 100⟩ ⟨1, 1⟩
    ({ id := 1, name := "a", size := 1, type := "image/png",
       status := Status.uploading, progress := 0 } : FileRecord)
    []
    ({ id := 1, name := "a", size := 1, type := "image/png",
       status := Status.uploading, progress := 0 } : FileRecord)
    (AuthResult.fail "x") TransferResult.ok).1 rfl (by decide)

/-- Claim C3 is false on the code: the uploading update performed at the
start of the retried attempt spreads the old record and resets only
status and progress, so the record entering uploading on retry still
carries the errorMessage of the failed attempt, and even a retry that
ends in success leaves the old errorMessage on the record. -/
theorem claim_C3_counterexample :
    ((updateById 1 uploadingUpd
        [{ id := 1, name := "a.png", size := 100, type := "image/png",
           status := Status.error, progress := 0, url := none,
           errorMessage := some "boom" : FileRecord }]).map FileRecord.status
      = [Status.uploading]) ∧
    ((updateById 1 uploadingUpd
        [{ id := 1, name := "a.png", size := 100, type := "image/png",
           status := Status.error, progress := 0, url := none,
           errorMessage := some "boom" : FileRecord }]).map FileRecord.errorMessage
      = [some "boom"]) ∧
    ((retryUpload 1 (AuthResult.ok { url := "https://u", key := "uploads/123-a.png" })
        [] TransferResult.ok
        [{ id := 1, name := "a.png", size := 100, type := "image/png",
           status := Status.error, progress := 0, url := none,
           errorMessage := some "boom" : FileRecord }]).map FileRecord.errorMessage
      = [some "boom"]) := by
  decide

/-- Claim C3, amended: the retry transition resets progressPercent to 0
and sets status to uploading before the new authorization request, but it
does not clear errorMessage: the errorMessage of the record entering
uploading is exactly the one the failed attempt left. -/
theorem claim_C3_amended (f : FileRecord) (hf : f.status = Status.error) :
    (uploadingUpd f).status = Status.uploading ∧
    (uploadingUpd f).progress = 0 ∧
    (uploadingUpd f).errorMessage = f.errorMessage :=
  ⟨rfl, rfl, rfl⟩

theorem claim_C3_witness :
    (uploadingUpd
        { id := 1, name := "a.png", size := 100, type := "image/png",
          status := Status.error, progress := 0, url := none,
          errorMessage := some "boom" : FileRecord }).status = Status.uploading ∧
    (uploadingUpd
        { id := 1, name := "a.png", size := 100, type := "image/png",
          status := Status.error, progress := 0, url := none,
          errorMessage := some "boom" : FileRecord }).progress = 0 ∧
    (uploadingUpd
        { id := 1, name := "a.png", size := 100, type := "image/png",
          status := Status.error, progress := 0, url := none,
          errorMessage := some "boom" : FileRecord }).errorMessage = some "boom" :=
  claim_C3_amended
    { id := 1, name := "a.png", size := 100, type := "image/png",
      status := Status.error, progress := 0, url := none,
      errorMessage := some "boom" : FileRecord } (by decide)

/-- Claim C4 is false on the code: a record in error satisfies the
field invariant, yet retrying it and letting the new attempt succeed
yields a record in success that still carries the stale errorMessage next
to its fresh url, so url and errorMessage coexist and errorMessage is
present outside state error. -/
theorem claim_C4_counterexample :
    recordWF
      { id := 1, name := "a.png", size := 100, type := "image/png",
        status := Status.error, progress := 0, url := none,
        errorMessage := some "boom" : FileRecord } = true ∧
    ((retryUpload 1 (AuthResult.ok { url := "https://u", key := "uploads/123-a.png" })
        [] TransferResult.ok
        [{ id := 1, name := "a.png", size := 100, type := "image/png",
           status := Status.error, progress := 0, url := none,
           errorMessage := some "boom" : FileRecord }]).map recordWF = [false]) ∧
    ((retryUpload 1 (AuthResult.ok { url := "https://u", key := "uploads/123-a.png" })
        [] TransferResult.ok
        [{ id := 1, name := "a.png", size := 100, type := "image/png",
           status := Status.error, progress := 0, url := none,
           errorMessage := some "boom" : FileRecord }]).map FileRecord.status
      = [Status.success]) ∧
    ((retryUpload 1 (AuthResult.ok { url := "https://u", key := "uploads/123-a.png" })
        [] TransferResult.ok
        [{ id := 1, name := "a.png", size := 100, type := "image/png",
           status := Status.error, progress := 0, url := none,
           errorMessage := some "boom" : FileRecord }]).map FileRecord.url
      = [some "https://undefined.s3.amazonaws.com/uploads/123-a.png"]) ∧
    ((retryUpload 1 (AuthResult.ok { url := "https://u", key := "uploads/123-a.png" })
        [] TransferResult.ok
        [{ id := 1, name := "a.png", size := 100, type := "image/png",
           status := Status.error, progress := 0, url := none,
           errorMessage := some "boom" : FileRecord }]).map FileRecord.errorMessage
      = [some "boom"]) := by
  decide

/-- Claim C4, amended: intake creates records with neither url nor
errorMessage, a whole upload attempt run on a record carrying neither
field ends in a record satisfying the invariant, as does the initial
uploading update of such a record, and progress updates preserve the
invariant; but no transition ever clears a field already set, so after a
retry of a failed record the invariant can be violated, as the
counterexample shows. -/
theorem claim_C4_amended (n : Nat) (cs : List Candidate) (info : FileRecord)
    (auth : AuthResult) (events : List ProgressEvent) (transfer : TransferResult)
    (g : FileRecord) (p : Nat) :
    (∀ r ∈ (validateBatch n cs).1, recordWF r = true) ∧
    (g.url = none → g.errorMessage = none →
      recordWF (uploadingUpd g) = true ∧
      recordWF (attemptUpd info auth events transfer g) = true) ∧
    (recordWF g = true → recordWF (progressUpd p g) = true) := by
  refine ⟨?_, ?_, ?_⟩
  · rw [validateBatch_eq]
    exact buildRecords_recordWF _ _
  · intro hu he
    constructor
    · simp [recordWF, uploadingUpd, hu, he]
    · cases auth with
      | fail st => simp [attemptUpd, recordWF, errorUpd, uploadingUpd, hu]
      | ok resp =>
        cases transfer with
        | ok =>
          simp [attemptUpd, recordWF, successUpd, foldlProgress_keeps_errorMessage,
            uploadingUpd, he]
        | err m =>
          simp [attemptUpd, recordWF, errorUpd, foldlProgress_keeps_url,
            uploadingUpd, hu]
  · intro h
    simpa [recordWF, progressUpd] using h

theorem claim_C4_witness :
    recordWF (uploadingUpd
      { id := 1, name := "a.png", size := 100, type := "image/png",
        status := Status.pending, progress := 0 : FileRecord }) = true ∧
    recordWF (attemptUpd
      { id := 1, name := "a.png", size := 100, type := "image/png",
        status := Status.pending, progress := 0 : FileRecord }
      (AuthResult.ok { url := "https://u", key := "uploads/123-a.png" })
      [⟨50, 100⟩] TransferResult.ok
      { id := 1, name := "a.png", size := 100, type := "image/png",
        status := Status.pending, progress := 0 : FileRecord }) = true :=
  (claim_C4_amended 0 []
    { id := 1, name := "a.png", size := 100, type := "image/png",
      status := Status.pending, progress := 0 : FileRecord }
    (AuthResult.ok { url := "https://u", key := "uploads/123-a.png" })
    [⟨50, 100⟩] TransferResult.ok
    { id := 1, name := "a.png", size := 100, type := "image/png",
      status := Status.pending, progress := 0 : FileRecord } 7).2.1 rfl rfl

/-- Claim C7 describes the intent but the code has a slip: a successful
transfer does move the record to success with progress 100 and a url
ending with the key returned by the authorization step, but the client
reads the bucket field of the authorization response while the server of
this repository returns only url and key, so the stored url interpolates
the text undefined where the bucket name was intended, and is therefore
not built from the bucket identifier.  Evaluation at the failing input:
the file a.png authorized at timestamp 123. -/
theorem claim_C7_code_bug :
    (getUploadUrlResponse 123 "a.png" "https://u").key = "uploads/123-a.png" ∧
    (getUploadUrlResponse 123 "a.png" "https://u").bucket = none ∧
    clientRemoteUrl (getUploadUrlResponse 123 "a.png" "https://u")
      = "https://undefined.s3.amazonaws.com/uploads/123-a.png" ∧
    (∃ p : String, clientRemoteUrl (getUploadUrlResponse 123 "a.png" "https://u")
      = p ++ serverKey 123 "a.png") ∧
    (uploadFile
        ({ id := 1, name := "a.png", size := 1000, type := "image/png",
           status := Status.pending, progress := 0 } : FileRecord)
        (AuthResult.ok (getUploadUrlResponse 123 "a.png" "https://u"))
        [] TransferResult.ok
        [({ id := 1, name := "a.png", size := 1000, type := "image/png",
            status := Status.pending, progress := 0 } : FileRecord)]).map
      (fun r => (r.status, r.progress, r.url))
      = [(Status.success, 100, some "https://undefined.s3.amazonaws.com/uploads/123-a.png")] := by
  refine ⟨rfl, rfl, by decide, ⟨"https://undefined.s3.amazonaws.com/", by decide⟩, by decide⟩

/-- Claim C8: intake appends the accepted records of a batch to the
existing files array without touching any existing record, acceptance is
decided candidate by candidate so rejected candidates do not block the
valid ones of the same batch, and immediately after intake every newly
accepted record receives the uploading update of its auto-started upload
(stated under fresh ids, which the id supply guarantees). -/
theorem claim_C8 (n : Nat) (cs : List Candidate) (st : ManagerState) :
    ((validateAndAddFiles n cs st).1).files = st.files ++ (validateAndAddFiles n cs st).2 ∧
    (validateAndAddFiles n cs st).2 = (validateBatch n cs).1 ∧
    ((validateAndAddFiles n cs st).2).map candOf = cs.filter accepts ∧
    ((∀ g ∈ st.files, g.id < n) →
      autoStart (validateAndAddFiles n cs st).2 ((validateAndAddFiles n cs st).1).files
        = st.files ++ ((validateAndAddFiles n cs st).2).map uploadingUpd) := by
  have h1 := (validateAndAddFiles_spec n cs st).1
  have h2 := (validateAndAddFiles_spec n cs st).2.1
  refine ⟨?_, h2, ?_, ?_⟩
  · rw [h1, h2]
  · rw [h2, validateBatch_eq]
    exact buildRecords_map_candOf _ _
  · intro h
    rw [h1, h2, validateBatch_eq]
    exact autoStart_buildRecords _ _ _ h

theorem claim_C8_witness :
    autoStart
        (validateAndAddFiles 1
          [⟨"a.png", "image/png", 1000⟩, ⟨"b.txt", "text/plain", 500⟩]
          ⟨[({ id := 0, name := "old", size := 1, type := "image/png",
               status := Status.success, progress := 100, url := some "u" } : FileRecord)],
            "x"⟩).2
        ((validateAndAddFiles 1
          [⟨"a.png", "image/png", 1000⟩, ⟨"b.txt", "text/plain", 500⟩]
          ⟨[({ id := 0, name := "old", size := 1, type := "image/png",
               status := Status.success, progress := 100, url := some "u" } : FileRecord)],
            "x"⟩).1).files
      = [({ id := 0, name := "old", size := 1, type := "image/png",
            status := Status.success, progress := 100, url := some "u" } : FileRecord)] ++
        ((validateAndAddFiles 1
          [⟨"a.png", "image/png", 1000⟩, ⟨"b.txt", "text/plain", 500⟩]
          ⟨[({ id := 0, name := "old", size := 1, type := "image/png",
               status := Status.success, progress := 100, url := some "u" } : FileRecord)],
            "x"⟩).2).map uploadingUpd :=
  (claim_C8 1 [⟨"a.png", "image/png", 1000⟩, ⟨"b.txt", "text/plain", 500⟩]
    ⟨[({ id := 0, name := "old", size := 1, type := "image/png",
         status := Status.success, progress := 100, url := some "u" } : FileRecord)],
      "x"⟩).2.2.2 (by decide)

/-- Claim C9: every update one upload attempt performs addresses records
by the captured id, so the attempt preserves the length of the files
array, leaves every record with a different id unchanged at its position,
is the identity on a state holding no record with that id, and in
particular is the identity after removeFile has deleted the record, the
in-flight result being silently discarded. -/
theorem claim_C9 (info : FileRecord) (auth : AuthResult) (events : List ProgressEvent)
    (transfer : TransferResult) (s : List FileRecord) :
    (uploadFile info auth events transfer s).length = s.length ∧
    (∀ (i : Nat) (g : FileRecord), s[i]? = some g → g.id ≠ info.id →
      (uploadFile info auth events transfer s)[i]? = some g) ∧
    ((∀ g ∈ s, g.id ≠ info.id) → uploadFile info auth events transfer s = s) ∧
    uploadFile info auth events transfer (removeFile info.id s) = removeFile info.id s := by
  refine ⟨?_, ?_, ?_, ?_⟩
  · rw [uploadFile_eq_updateById]
    simp [updateById]
  · intro i g hg hne
    rw [uploadFile_eq_updateById]
    simp [updateById, hg, hne]
  · intro h
    rw [uploadFile_eq_updateById]
    exact updateById_of_forall_ne _ _ _ h
  · rw [uploadFile_eq_updateById]
    exact updateById_of_forall_ne _ _ _ (removeFile_id_ne _ _)

theorem claim_C9_witness :
    uploadFile
        ({ id := 5, name := "a", size := 1, type := "image/png",
           status := Status.error, progress := 0 } : FileRecord)
        (AuthResult.fail "x") [] TransferResult.ok
        [({ id := 1, name := "b", size := 1, type := "image/png",
            status := Status.pending, progress := 0 } : FileRecord)]
      = [({ id := 1, name := "b", size := 1, type := "image/png",
            status := Status.pending, progress := 0 } : FileRecord)] ∧
    (uploadFile
        ({ id := 5, name := "a", size := 1, type := "image/png",
           status := Status.error, progress := 0 } : FileRecord)
        (AuthResult.fail "x") [] TransferResult.ok
        [({ id := 1, name := "b", size := 1, type := "image/png",
            status := Status.pending, progress := 0 } : FileRecord)])[0]?
      = some ({ id := 1, name := "b", size := 1, type := "image/png",
                status := Status.pending, progress := 0 } : FileRecord) :=
  ⟨(claim_C9
      ({ id := 5, name := "a", size := 1, type := "image/png",
         status := Status.error, progress := 0 } : FileRecord)
      (AuthResult.fail "x") [] TransferResult.ok
      [({ id := 1, name := "b", size := 1, type := "image/png",
          status := Status.pending, progress := 0 } : FileRecord)]).2.2.1 (by decide),
    (claim_C9
      ({ id := 5, name := "a", size := 1, type := "image/png",
         status := Status.error, progress := 0 } : FileRecord)
      (AuthResult.fail "x") [] TransferResult.ok
      [({ id := 1, name := "b", size := 1, type := "image/png",
          status := Status.pending, progress := 0 } : FileRecord)]).2.1 0
      ({ id := 1, name := "b", size := 1, type := "image/png",
         status := Status.pending, progress := 0 } : FileRecord)
      (by decide) (by decide)⟩

end Uploader
